import Mathlib

/-!
Verification of the schedule-data core of StreamSchedulerImageGenerator.

The definitions below are a shallow embedding of the Python sources
`src/python/StreamSchedulerManagerEnhanced.py` (configuration loading,
slot derivation, slot deletion, the Flask `/api/config` routes) and
`src/deprecated_python/StreamSchedulerManagerEnhanced.py` (the Discord
message composer: `parse_time_string` and the per-slot rendering inside
`generate_discord_message`).

JSON documents are modelled as a tree type `JValue`; Python dicts are
association lists with unique keys in insertion order, as produced by
`json.load`.  Machine integers are `Int` (Python ints are unbounded, so
no wrap-around modelling is needed).  Fallible Python code (statements
inside `try:` blocks, subscripts that can raise `KeyError`/`TypeError`/
`IndexError`/`ValueError`) is modelled with `Option`.
-/

/-- A JSON-compatible tree, the shape of the persisted configuration.
Numbers in the configuration are integers, so numeric leaves are `Int`. -/
inductive JValue where
  | null : JValue
  | bool (b : Bool) : JValue
  | num (n : Int) : JValue
  | str (s : String) : JValue
  | arr (elems : List JValue) : JValue
  | obj (fields : List (String × JValue)) : JValue

/-- First value bound to key `k`, modelling `d[k]` on a Python dict
(keys are unique in dicts produced by `json.load`). -/
def lookupField (l : List (String × JValue)) (k : String) : Option JValue :=
  match l with
  | [] => none
  | (k', v) :: rest => if k' = k then some v else lookupField rest k

/-- `d[k] = v` on a Python dict: replaces the value of an existing key in
place (keeping its position) and appends a fresh key at the end. -/
def setKey (l : List (String × JValue)) (k : String) (v : JValue) :
    List (String × JValue) :=
  match l with
  | [] => [(k, v)]
  | (k', v') :: rest => if k' = k then (k', v) :: rest else (k', v') :: setKey rest k v

/-- The fields of a mapping; `none` models the `TypeError` a string
subscript raises on any non-dict Python value. -/
def asObj (v : JValue) : Option (List (String × JValue)) :=
  match v with
  | .obj fields => some fields
  | _ => none

/-- `value` of a JSON tree when it is a string, else `none`. -/
def asStr (v : JValue) : Option String :=
  match v with
  | .str s => some s
  | _ => none

/-- Dict lookup through a `JValue`, `none` when the tree is not a mapping
or the key is absent. -/
def jget (v : JValue) (k : String) : Option JValue :=
  match v with
  | .obj fields => lookupField fields k
  | _ => none

section PyStringOps

/-- Digit character to its value. -/
def digitVal (c : Char) : Nat := c.toNat - '0'.toNat

/-- Value of a non-empty digit string read in base 10. -/
def natFromDigits (ds : List Char) : Nat :=
  ds.foldl (fun a c => 10 * a + digitVal c) 0

/-- Python `str.strip()`: drops whitespace from both ends. -/
def pyStrip (s : String) : List Char :=
  ((s.data.dropWhile Char.isWhitespace).reverse.dropWhile Char.isWhitespace).reverse

/-- Python `int(s)` on decimal text: surrounding whitespace and a single
leading sign are tolerated, anything else must be ASCII digits
(`ValueError` = `none`; digit-group underscores are not modelled as no
input in the repository uses them). -/
def pyInt (s : String) : Option Int :=
  match pyStrip s with
  | '-' :: ds =>
      if ds ≠ [] ∧ ds.all Char.isDigit then some (-(natFromDigits ds : Int)) else none
  | '+' :: ds =>
      if ds ≠ [] ∧ ds.all Char.isDigit then some ((natFromDigits ds : Int)) else none
  | ds =>
      if ds ≠ [] ∧ ds.all Char.isDigit then some ((natFromDigits ds : Int)) else none

/-- Worker for `pySplitOnSep`: scans `cs`, cutting at every non-overlapping
occurrence of the (non-empty) separator, accumulating the current piece in
reverse.  `fuel` only bounds the recursion; it is never exhausted when
called with `cs.length + 1`. -/
def splitSepGo (sep : List Char) : Nat → List Char → List Char → List (List Char)
  | 0, cs, acc => [acc.reverse ++ cs]
  | fuel + 1, cs, acc =>
    match cs with
    | [] => [acc.reverse]
    | c :: rest =>
      if sep.isPrefixOf cs then
        acc.reverse :: splitSepGo sep fuel (cs.drop sep.length) []
      else
        splitSepGo sep fuel rest (c :: acc)

/-- Python `s.split(sep)` for a non-empty separator: splits at every
non-overlapping occurrence, keeping empty pieces. -/
def pySplitOnSep (s sep : String) : List String :=
  (splitSepGo sep.data (s.data.length + 1) s.data []).map List.asString

/-- Worker for `pySplitWs`. -/
def splitWsGo : List Char → List Char → List String
  | [], acc => if acc.isEmpty then [] else [acc.reverse.asString]
  | c :: rest, acc =>
    if c.isWhitespace then
      if acc.isEmpty then splitWsGo rest [] else acc.reverse.asString :: splitWsGo rest []
    else
      splitWsGo rest (c :: acc)

/-- Python `s.split()` with no argument: splits on runs of whitespace and
drops empty pieces. -/
def pySplitWs (s : String) : List String := splitWsGo s.data []

end PyStringOps

section DeriveNextSlot

/-!
`StreamSchedulerManager.add_new_slot`
(`src/python/StreamSchedulerManagerEnhanced.py`, lines 493-553): derive
the next slot's default time range from the last existing slot.
-/

/-- The `# Add 30 minutes` block of `add_new_slot`: carries the minute
overflow into the hour, wraps hour `13` to `1` without touching the
meridiem, and flips the meridiem when the hour lands exactly on `12`.
The meridiem is an uninterpreted string, exactly as in the source. -/
def addThirtyMinutes (hour minute : Int) (ampm : String) : Int × Int × String :=
  let minute := minute + 30
  if minute ≥ 60 then
    let hour := hour + 1
    let minute := minute - 60
    if hour > 12 then (1, minute, ampm)
    else if hour = 12 ∧ ampm = "AM" then (hour, minute, "PM")
    else if hour = 12 ∧ ampm = "PM" then (hour, minute, "AM")
    else (hour, minute, ampm)
  else (hour, minute, ampm)

/-- The `# Calculate end time (3 hours later)` block of `add_new_slot`:
adds 3 to the hour and flips the meridiem whenever the raw sum reaches or
passes `12` (`"PM" if ampm == "AM" else "AM"`). -/
def addThreeHours (hour : Int) (ampm : String) : Int × String :=
  let endHour := hour + 3
  if endHour > 12 then (endHour - 12, if ampm = "AM" then "PM" else "AM")
  else if endHour = 12 then (endHour, if ampm = "AM" then "PM" else "AM")
  else (endHour, ampm)

/-- Python `f"{minute:02d}"`: zero-pads single-digit non-negative values
to width two (the sign of a negative value counts toward the width). -/
def pad2 (m : Int) : String :=
  if 0 ≤ m ∧ m < 10 then "0" ++ toString m else toString m

/-- Python `f"{hour}:{minute:02d} {ampm}"`. -/
def fmtTime (hour minute : Int) (ampm : String) : String :=
  toString hour ++ ":" ++ pad2 minute ++ " " ++ ampm

/-- The arithmetic and formatting of `add_new_slot` applied to the parsed
end time of the last slot: new start = end + 30 minutes, new end = new
start + 3 hours, rendered as `"<start> - <end>"`. -/
def deriveCore (hour minute : Int) (ampm : String) : String :=
  let s := addThirtyMinutes hour minute ampm
  let e := addThreeHours s.1 s.2.2
  fmtTime s.1 s.2.1 s.2.2 ++ " - " ++ fmtTime e.1 s.2.1 e.2

/-- The parsing steps of `add_new_slot` on the last slot's time string:
`_, end_time = time.split(' - ')` (exactly two pieces or `ValueError`),
`time_parts = end_time.split()`, `hour_min = time_parts[0].split(':')`,
`hour = int(hour_min[0])`, `minute = int(hour_min[1])`,
`ampm = time_parts[1]`.  Any raised exception is `none`. -/
def parseEndOfRange (t : String) : Option (Int × Int × String) :=
  match pySplitOnSep t " - " with
  | [_, endTime] =>
    let timeParts := pySplitWs endTime
    match timeParts[0]? with
    | none => none
    | some hm =>
      let hourMin := pySplitOnSep hm ":"
      match hourMin[0]? with
      | none => none
      | some hs =>
        match hourMin[1]? with
        | none => none
        | some ms =>
          match pyInt hs with
          | none => none
          | some hour =>
            match pyInt ms with
            | none => none
            | some minute =>
              match timeParts[1]? with
              | none => none
              | some ampm => some (hour, minute, ampm)
  | _ => none

/-- The whole `try:` block of `add_new_slot` on the last slot's time
string; `none` is the `except:` path. -/
def tryDeriveTime (t : String) : Option String :=
  (parseEndOfRange t).map fun x => deriveCore x.1 x.2.1 x.2.2

/-- `add_new_slot`'s default time for the new slot, from the list of
existing slots (JSON slot objects): empty list gives the fixed default,
a parse failure on the last slot's time gives the fixed fallback. -/
def deriveNextTimeJ (slots : List JValue) : String :=
  match slots.getLast? with
  | none => "9:30 AM - 12:30 PM"
  | some lastSlot =>
    match jget lastSlot "time" with
    | some (.str t) => (tryDeriveTime t).getD "2:00 PM - 5:00 PM"
    | _ => "2:00 PM - 5:00 PM"

/-- The new slot appended by `add_new_slot`. -/
def newSlotJ (slots : List JValue) : JValue :=
  .obj [("time", .str (deriveNextTimeJ slots)),
        ("title", .str "New Stream Session"),
        ("desc", .str "Description of this stream session")]

end DeriveNextSlot

/-- The spec's "simple 24-hour-converted addition" yardstick: wall-clock
minutes since midnight of a 12-hour reading (hour taken mod 12, plus 12
hours when the meridiem reads PM).  Stated from the specification's
words, for comparison with the code's arithmetic. -/
def to24min (hour minute : Int) (ampm : String) : Int :=
  (hour % 12 + if ampm = "PM" then 12 else 0) * 60 + minute

section WellFormedTimes

/-- One side of a slot time range matches `H:MM AM|PM`: an unpadded hour
in `[1, 12]`, a colon, an exactly-two-digit minute in `[00, 59]`, one
space, and a meridiem that is exactly `AM` or `PM`. -/
def wfPart (p : String) : Bool :=
  match pySplitOnSep p " " with
  | [hm, ap] =>
    (ap == "AM" || ap == "PM") &&
    (match pySplitOnSep hm ":" with
     | [hs, ms] =>
       !hs.data.isEmpty && hs.data.all Char.isDigit &&
       decide (hs.data.length ≤ 2) && (hs.data.head? != some '0') &&
       decide (1 ≤ natFromDigits hs.data) && decide (natFromDigits hs.data ≤ 12) &&
       (ms.data.length == 2) && ms.data.all Char.isDigit &&
       decide (natFromDigits ms.data ≤ 59)
     | _ => false)
  | _ => false

/-- A slot time string is well formed when it splits on `" - "` into
exactly two parts, each matching `H:MM AM|PM` per `wfPart`. -/
def wellFormedTime (t : String) : Bool :=
  match pySplitOnSep t " - " with
  | [a, b] => wfPart a && wfPart b
  | _ => false

/-- Exhaustive check that `deriveCore` produces a well-formed time range
from every in-range parsed end time (hour `1..12`, minute `0..59`,
meridiem `AM`/`PM`). -/
def wfAllCheck : Bool :=
  (List.range 12).all fun hi =>
    (List.range 60).all fun mi =>
      ["AM", "PM"].all fun ap =>
        wellFormedTime (deriveCore ((hi : Int) + 1) (mi : Int) ap)

/-- Exhaustive check relating the code's +3-hour end time to the simple
24-hour-converted addition over every in-range parsed end time: the end
lands at start + 180 minutes, plus an extra 720 minutes (a meridiem
flip) exactly when the new start hour is 12. -/
def plus3Check : Bool :=
  (List.range 12).all fun hi =>
    (List.range 60).all fun mi =>
      ["AM", "PM"].all fun ap =>
        let s := addThirtyMinutes ((hi : Int) + 1) (mi : Int) ap
        let e := addThreeHours s.1 s.2.2
        to24min e.1 s.2.1 e.2 ==
          (to24min s.1 s.2.1 s.2.2 + 180 + (if s.1 = 12 then 720 else 0)) % 1440

end WellFormedTimes

section MessageComposer

/-!
`StreamSchedulerManager.parse_time_string` and the per-slot rendering in
`StreamSchedulerManager.generate_discord_message`
(`src/deprecated_python/StreamSchedulerManagerEnhanced.py`, lines
1357-1374 and 1407-1434).
-/

/-- One stream slot as read by the composer: `slot['time']`,
`slot['title']`, `slot['desc']`. -/
structure Slot where
  time : String
  title : String
  desc : String

/-- A wall-clock reading combined with a calendar date, the argument pair
of `get_timestamp(date, hours, minutes)`.  `day` counts calendar days
from the reference date (`datetime.now()`), so today is `0`, tomorrow
`1`, the day after `2`. -/
structure Instant where
  day : Nat
  hours : Nat
  minutes : Nat
  deriving DecidableEq

/-- Tail of `parse_time_string` after the regex groups are read: the
24-hour conversion (`PM` adds 12 except at hour 12; `12 AM` becomes 0). -/
def to24Hours (hours : Nat) (isPM : Bool) : Nat :=
  if isPM ∧ hours ≠ 12 then hours + 12
  else if ¬isPM ∧ hours = 12 then 0
  else hours

/-- The `\s*(AM|PM)` tail of the `parse_time_string` regex, case
insensitive, with arbitrary trailing text allowed (`re.match` anchors
only the start).  Returns whether the meridiem read `PM`. -/
def parseMeridiem (cs : List Char) : Option Bool :=
  match cs.dropWhile Char.isWhitespace with
  | a :: m :: _ =>
    if (a = 'A' ∨ a = 'a') ∧ (m = 'M' ∨ m = 'm') then some false
    else if (a = 'P' ∨ a = 'p') ∧ (m = 'M' ∨ m = 'm') then some true
    else none
  | _ => none

/-- The `:(\d{2})\s*(AM|PM)` tail of the regex starting at the colon,
given the already-read hour. -/
def parseAfterHour (hours : Nat) (cs : List Char) : Option (Nat × Nat) :=
  match cs with
  | ':' :: c1 :: c2 :: rest =>
    if c1.isDigit ∧ c2.isDigit then
      match parseMeridiem rest with
      | some isPM => some (to24Hours hours isPM, 10 * digitVal c1 + digitVal c2)
      | none => none
    else none
  | _ => none

/-- `parse_time_string`: `re.match(r'(\d{1,2}):(\d{2})\s*(AM|PM)', s,
re.IGNORECASE)` followed by 24-hour conversion; `none` when the regex
does not match.  The greedy one-or-two-digit hour backtracks to one
digit when two digits leave no colon, exactly as the regex engine does.
Returns `(hours, minutes)` in 24-hour form. -/
def parseTimeString (s : String) : Option (Nat × Nat) :=
  match s.data with
  | c1 :: rest =>
    if c1.isDigit then
      let twoDigit :=
        match rest with
        | c2 :: rest2 =>
          if c2.isDigit then parseAfterHour (10 * digitVal c1 + digitVal c2) rest2 else none
        | [] => none
      match twoDigit with
      | some r => some r
      | none => parseAfterHour (digitVal c1) rest
    else none
  | [] => none

/-- Start and end instants the composer assigns to one slot time range
under `useTimestamp=true`: both carry the reference date, except that
the end moves to the next calendar day when the end hour is strictly
below the start hour or the end reads exactly midnight. -/
def slotInstants (refDay : Nat) (time : String) : Option (Instant × Instant) :=
  match pySplitOnSep time " - " with
  | [a, b] =>
    match parseTimeString a, parseTimeString b with
    | some st, some et =>
      let endDay := if et.1 < st.1 ∨ (et.1 = 0 ∧ et.2 = 0) then refDay + 1 else refDay
      some (⟨refDay, st.1, st.2⟩, ⟨endDay, et.1, et.2⟩)
    | _, _ => none
  | _ => none

/-- One schedule line of `generate_discord_message`.  `ts` abstracts
`get_timestamp` (whose unix-seconds value depends on the host calendar
and timezone); `fc` is the template's timestamp format character.  Every
failure path — no `" - "` split into exactly two parts, either side
rejected by `parse_time_string`, or timestamps disabled — renders the
literal `• **<time>** - <title>: <desc>` line. -/
def renderSlotLine (ts : Instant → Int) (fc : String) (useTs : Bool)
    (refDay : Nat) (slot : Slot) : String :=
  if useTs then
    match slotInstants refDay slot.time with
    | some (s, e) =>
      "• <t:" ++ toString (ts s) ++ ":" ++ fc ++ "> to <t:" ++ toString (ts e) ++
        ":" ++ fc ++ "> - **" ++ slot.title ++ "**: " ++ slot.desc
    | none => "• **" ++ slot.time ++ "** - " ++ slot.title ++ ": " ++ slot.desc
  else "• **" ++ slot.time ++ "** - " ++ slot.title ++ ": " ++ slot.desc

/-- A day's schedule text: slot lines joined by newline, no trailing
separator (the `today_times` / `tomorrow_times` accumulation loops). -/
def renderDayTimes (ts : Instant → Int) (fc : String) (useTs : Bool)
    (refDay : Nat) (slots : List Slot) : String :=
  String.intercalate "\n" (slots.map (renderSlotLine ts fc useTs refDay))

end MessageComposer

section Normalization

/-!
`StreamSchedulerManager.load_config`
(`src/python/StreamSchedulerManagerEnhanced.py`, lines 311-407): repair
a parsed configuration tree (keyed slot maps become arrays) or fall back
to the hardcoded default document when any access raises.
-/

/-- Lexicographic code-point comparison on character lists, the order
Python uses to compare strings. -/
def charsLt : List Char → List Char → Bool
  | [], [] => false
  | [], _ :: _ => true
  | _ :: _, [] => false
  | x :: xs, y :: ys => if x < y then true else if y < x then false else charsLt xs ys

/-- Python `a < b` on strings. -/
def strLt (a b : String) : Bool := charsLt a.data b.data

/-- Insert a field into a key-sorted list, before any equal key already
present (keeps Python `sorted`'s stability). -/
def insertByKey (kv : String × JValue) : List (String × JValue) → List (String × JValue)
  | [] => [kv]
  | y :: ys => if strLt y.1 kv.1 then y :: insertByKey kv ys else kv :: y :: ys

/-- Stable sort of a field list by key, modelling
`for key in sorted(d.keys())` (lexicographic string order, Python and
Lean both compare code points). -/
def sortByKey : List (String × JValue) → List (String × JValue)
  | [] => []
  | x :: xs => insertByKey x (sortByKey xs)

/-- The body of the legacy-tolerance loop: a keyed slot mapping becomes
the array of its values in sorted key order
(`if isinstance(..., dict): slots = [d[k] for k in sorted(d.keys())]`);
anything else is left untouched. -/
def convertSlots (v : JValue) : JValue :=
  match v with
  | .obj fields => .arr ((sortByKey fields).map Prod.snd)
  | _ => v

/-- One day's inner loop over `['normal', 'work']`:
`config['schedule'][day][type]` is read (`TypeError` on a non-dict day
value, `KeyError` on a missing type key — both abort to the default
document) and written back in place. -/
def fixTypes (dayVal : JValue) : Option JValue :=
  match asObj dayVal with
  | none => none
  | some df =>
    match lookupField df "normal" with
    | none => none
    | some nv =>
      let df1 := setKey df "normal" (convertSlots nv)
      match lookupField df1 "work" with
      | none => none
      | some wv => some (.obj (setKey df1 "work" (convertSlots wv)))

/-- The whole repair loop of `load_config` over `['today', 'tomorrow']`;
`none` is any raised exception (non-mapping root, missing `schedule`,
missing day, non-mapping or incomplete day value), which the surrounding
`try:` converts into the default document. -/
def fixSchedule (cfg : JValue) : Option JValue :=
  match asObj cfg with
  | none => none
  | some rootFields =>
    match lookupField rootFields "schedule" with
    | none => none
    | some schedV =>
      match asObj schedV with
      | none => none
      | some sf =>
        match lookupField sf "today" with
        | none => none
        | some tv =>
          match fixTypes tv with
          | none => none
          | some tv' =>
            let sf1 := setKey sf "today" tv'
            match lookupField sf1 "tomorrow" with
            | none => none
            | some mv =>
              match fixTypes mv with
              | none => none
              | some mv' =>
                some (.obj (setKey rootFields "schedule" (.obj (setKey sf1 "tomorrow" mv'))))

/-- Helper for the default document's slot objects. -/
def mkSlot (time title desc : String) : JValue :=
  .obj [("time", .str time), ("title", .str title), ("desc", .str desc)]

/-- The hardcoded default configuration returned by `load_config` when
the file is absent or any access raises, transcribed from the source
(the source file's literal byte sequences are kept, including the
mis-encoded emoji, with braces and apostrophes written as escapes). -/
def defaultConfig : JValue :=
  .obj
    [("channel", .obj
       [("name", .str "Audacious Gabe"),
        ("link", .str "https://www.twitch.tv/audaciousgabe")]),
     ("theme", .str "twilight"),
     ("timezone", .str "EST"),
     ("exportScope", .str "full"),
     ("schedule", .obj
       [("today", .obj
          [("type", .str "normal"),
           ("title", .str "Today\x27s Stream"),
           ("normal", .arr
             [mkSlot "9:30 AM - 12:30 PM" "Morning Warmup"
                "Clearing admin tasks, then jumping into chill development.",
              mkSlot "1:00 PM - 4:00 PM" "Focused Development + Prototype Speedrun"
                "Getting stuff done and making things happen âœ¨ðŸ‘",
              mkSlot "5:00 PM - 8:00 PM" "Greenlight Development"
                "You picked it, now we\x27re building it.",
              mkSlot "9:00 PM - 12:00 AM" "Late Night Admin"
                "Winding down with some chill development."]),
           ("work", .arr
             [mkSlot "9:30 AM - 12:30 PM" "Morning Warmup"
                "Clearing admin tasks, then jumping into chill development.",
              mkSlot "12:30 PM - 3:30 PM" "Focused Development + Prototype Speedrun"
                "Getting stuff done and making things happen âœ¨ðŸ‘"])]),
        ("tomorrow", .obj
          [("type", .str "work"),
           ("title", .str "Tomorrow\x27s Stream"),
           ("normal", .arr
             [mkSlot "9:30 AM - 12:30 PM" "Morning Warmup"
                "Clearing admin tasks, then jumping into chill development.",
              mkSlot "1:00 PM - 4:00 PM" "Focused Development + Prototype Speedrun"
                "Getting stuff done and making things happen âœ¨ðŸ‘",
              mkSlot "5:00 PM - 8:00 PM" "Greenlight Development"
                "You picked it, now we\x27re building it.",
              mkSlot "9:00 PM - 12:00 AM" "Late Night Admin"
                "Winding down with some chill development."]),
           ("work", .arr
             [mkSlot "9:30 AM - 12:30 PM" "Morning Warmup"
                "Clearing admin tasks, then jumping into chill development.",
              mkSlot "12:30 PM - 3:30 PM" "Focused Development + Prototype Speedrun"
                "Getting stuff done and making things happen âœ¨ðŸ‘"])])]),
     ("layout", .obj
       [("outerPadding", .obj
          [("top", .num 32), ("bottom", .num 32), ("left", .num 32), ("right", .num 32)]),
        ("innerPadding", .obj
          [("top", .num 32), ("bottom", .num 32), ("left", .num 32), ("right", .num 32)]),
        ("glow", .obj
          [("title", .num 20), ("link", .num 15), ("panel", .num 50),
           ("intensity", .num 50)])]),
     ("discord", .obj
       [("templates", .arr
          [.obj
            [("name", .str "Stream Starting Soon"),
             ("title", .str "ðŸ”´ Stream Starting Soon! ðŸ”´"),
             ("message", .str "@everyone Hey folks! Stream is starting in \x7b\x7btime\x7d\x7d minutes!\n\nðŸŽ® **Today\x27s Schedule:**\n\x7b\x7bschedule\x7d\x7d\n\nðŸ“º Join us at: \x7b\x7blink\x7d\x7d"),
             ("useTimestamp", .bool true),
             ("timestampFormat", .str "R")],
           .obj
            [("name", .str "Stream Live"),
             ("title", .str "ðŸ”´ WE\x27RE LIVE! ðŸ”´"),
             ("message", .str "@everyone We\x27re live right now!\n\nðŸŽ® **Today\x27s Schedule:**\n\x7b\x7bschedule\x7d\x7d\n\nðŸ“º Watch at: \x7b\x7blink\x7d\x7d"),
             ("useTimestamp", .bool false),
             ("timestampFormat", .str "t")],
           .obj
            [("name", .str "Schedule Update"),
             ("title", .str "ðŸ“… Schedule Update ðŸ“…"),
             ("message", .str "Hey everyone! Here\x27s our streaming schedule:\n\n**Today:** \x7b\x7btoday_type\x7d\x7d\n\x7b\x7btoday_schedule\x7d\x7d\n\n**Tomorrow:** \x7b\x7btomorrow_type\x7d\x7d\n\x7b\x7btomorrow_schedule\x7d\x7d\n\nâ° Times are in \x7b\x7btimezone\x7d\x7d"),
             ("useTimestamp", .bool false),
             ("timestampFormat", .str "f")]]),
        ("currentTemplate", .num 0),
        ("customMessage", .obj
          [("title", .str "Doubling our Usual Hours! âœ¨ðŸ‘"),
           ("message", .str ""),
           ("useTimestamp", .bool true),
           ("timestampFormat", .str "t")])])]

/-- `load_config` on a parsed tree: the repaired tree, or the default
document when any access in the repair loop raises. -/
def normalizeTree (cfg : JValue) : JValue :=
  (fixSchedule cfg).getD defaultConfig

/-- `save_config` writes the tree with `json.dump` and `load_config`
re-reads it with `json.load`; that pair is value-preserving on JSON
trees, so serialization followed by parsing is modelled as the identity
on `JValue`. -/
def serializeTree (doc : JValue) : JValue := doc

end Normalization

section EditingOps

/-!
Slot editing (`add_new_slot`, `delete_slot`) and the Flask
`/api/config` routes (`src/python/StreamSchedulerManagerEnhanced.py`,
lines 493-580 and 1099-1114).
-/

/-- `self.config["schedule"][day][stype]`: the slot collection of one
day and schedule type; `none` models a raised `KeyError`/`TypeError`. -/
def getSlots (cfg : JValue) (day ty : String) : Option JValue :=
  match asObj cfg with
  | none => none
  | some rootFields =>
    match lookupField rootFields "schedule" with
    | none => none
    | some schedV =>
      match asObj schedV with
      | none => none
      | some sf =>
        match lookupField sf day with
        | none => none
        | some dv =>
          match asObj dv with
          | none => none
          | some df => lookupField df ty

/-- In-place assignment `self.config["schedule"][day][stype] = v`,
leaving the tree unchanged when the path does not exist (the operations
below only write to a path they have just read). -/
def setSlots (cfg : JValue) (day ty : String) (v : JValue) : JValue :=
  match cfg with
  | .obj rootFields =>
    match lookupField rootFields "schedule" with
    | some (.obj sf) =>
      match lookupField sf day with
      | some (.obj df) =>
        .obj (setKey rootFields "schedule"
          (.obj (setKey sf day (.obj (setKey df ty v)))))
      | _ => cfg
    | _ => cfg
  | _ => cfg

/-- Python `list.pop(index)` for a non-negative index: the list without
that element, `IndexError` = `none`. -/
def pyPop (l : List JValue) (index : Nat) : Option (List JValue) :=
  if index < l.length then some (l.eraseIdx index) else none

/-- `StreamSchedulerManager.delete_slot`: refuses (leaving the document
untouched) when the collection holds at most one slot, also leaves it
untouched when the user answers no to the confirmation dialog
(`confirm`), and otherwise removes the indexed slot; `none` models a
propagated exception (missing path or out-of-range index). -/
def deleteSlot (cfg : JValue) (day ty : String) (index : Nat) (confirm : Bool) :
    Option JValue :=
  match getSlots cfg day ty with
  | none => none
  | some slotsV =>
    match slotsV with
    | .arr slots =>
      if slots.length ≤ 1 then some cfg
      else if confirm then
        match pyPop slots index with
        | none => none
        | some slots' => some (setSlots cfg day ty (.arr slots'))
      else some cfg
    | _ => none

/-- `StreamSchedulerManager.add_new_slot`: appends the derived slot to
the collection; `none` models a propagated exception (missing path or a
non-list collection). -/
def addSlotJ (cfg : JValue) (day ty : String) : Option JValue :=
  match getSlots cfg day ty with
  | none => none
  | some slotsV =>
    match slotsV with
    | .arr slots => some (setSlots cfg day ty (.arr (slots ++ [newSlotJ slots])))
    | _ => none

/-- Python `dict.update(data)`: each key of `data`, in order, replaces an
existing key's value in place or is appended at the end. -/
def pyDictUpdate (d data : List (String × JValue)) : List (String × JValue) :=
  data.foldl (fun acc kv => setKey acc kv.1 kv.2) d

/-- The Flask `GET /api/config` route: the document when the manager is
initialized, `none` for the 500 error response. -/
def getConfigRoute (mgr : Option JValue) : Option JValue := mgr

/-- The Flask `POST /api/config` route: shallow-merges the JSON body
into the document with `dict.update`, persists, and returns the merged
document.  The result is `(new manager state, response document)`;
`none` is the 500 error response for an uninitialized manager. -/
def postConfigRoute (mgr : Option JValue) (body : List (String × JValue)) :
    Option (JValue × JValue) :=
  match mgr with
  | some (.obj fields) =>
    let merged : JValue := .obj (pyDictUpdate fields body)
    some (merged, merged)
  | _ => none

end EditingOps

/-! ### Association-list lemmas -/

theorem lookupField_setKey_self (l : List (String × JValue)) (k : String) (v : JValue) :
    lookupField (setKey l k v) k = some v := by
  induction l with
  | nil => simp [setKey, lookupField]
  | cons hd tl ih =>
    obtain ⟨k', v'⟩ := hd
    by_cases h : k' = k
    · simp [setKey, lookupField, h]
    · simp [setKey, lookupField, h, ih]

theorem lookupField_setKey_ne (l : List (String × JValue)) {k' k : String} (v : JValue)
    (h : k' ≠ k) : lookupField (setKey l k' v) k = lookupField l k := by
  induction l with
  | nil => simp [setKey, lookupField, h]
  | cons hd tl ih =>
    obtain ⟨k₁, v₁⟩ := hd
    by_cases h1 : k₁ = k'
    · simp [setKey, lookupField, h1, h]
    · by_cases h2 : k₁ = k <;> simp [setKey, lookupField, h1, h2, ih, Ne.symm h]

theorem asObj_obj (f : List (String × JValue)) : asObj (.obj f) = some f := rfl

theorem setKey_of_lookup {l : List (String × JValue)} {k : String} {v : JValue}
    (h : lookupField l k = some v) : setKey l k v = l := by
  induction l with
  | nil => simp [lookupField] at h
  | cons hd tl ih =>
    obtain ⟨k₁, v₁⟩ := hd
    by_cases h1 : k₁ = k
    · simp [lookupField, h1] at h
      simp [setKey, h1, h]
    · simp [lookupField, h1] at h
      simp [setKey, h1, ih h]

/-! ### Idempotence of the repair loop -/

theorem convertSlots_convertSlots (v : JValue) :
    convertSlots (convertSlots v) = convertSlots v := by
  cases v <;> rfl

theorem fixTypes_idem {v v' : JValue} (h : fixTypes v = some v') : fixTypes v' = some v' := by
  cases hv : asObj v with
  | none => simp only [fixTypes, hv] at h; exact Option.noConfusion h
  | some df =>
    simp only [fixTypes, hv] at h
    cases hn : lookupField df "normal" with
    | none => simp only [hn] at h; exact Option.noConfusion h
    | some nv =>
      simp only [hn] at h
      cases hw : lookupField (setKey df "normal" (convertSlots nv)) "work" with
      | none => simp only [hw] at h; exact Option.noConfusion h
      | some wv =>
        simp only [hw, Option.some.injEq] at h
        subst h
        have h1 : lookupField (setKey (setKey df "normal" (convertSlots nv)) "work"
            (convertSlots wv)) "normal" = some (convertSlots nv) := by
          rw [lookupField_setKey_ne _ _ (by decide)]
          exact lookupField_setKey_self ..
        have h2 : lookupField (setKey (setKey df "normal" (convertSlots nv)) "work"
            (convertSlots wv)) "work" = some (convertSlots wv) :=
          lookupField_setKey_self ..
        simp only [fixTypes, asObj, h1, h2, convertSlots_convertSlots,
          setKey_of_lookup h1, setKey_of_lookup h2]

theorem fixSchedule_idem {raw d : JValue} (h : fixSchedule raw = some d) :
    fixSchedule d = some d := by
  cases hr : asObj raw with
  | none => simp only [fixSchedule, hr] at h; exact Option.noConfusion h
  | some rf =>
    simp only [fixSchedule, hr] at h
    cases hs : lookupField rf "schedule" with
    | none => simp only [hs] at h; exact Option.noConfusion h
    | some schedV =>
      simp only [hs] at h
      cases ho : asObj schedV with
      | none => simp only [ho] at h; exact Option.noConfusion h
      | some sf =>
        simp only [ho] at h
        cases ht : lookupField sf "today" with
        | none => simp only [ht] at h; exact Option.noConfusion h
        | some tv =>
          simp only [ht] at h
          cases ht' : fixTypes tv with
          | none => simp only [ht'] at h; exact Option.noConfusion h
          | some tv' =>
            simp only [ht'] at h
            cases hm : lookupField (setKey sf "today" tv') "tomorrow" with
            | none => simp only [hm] at h; exact Option.noConfusion h
            | some mv =>
              simp only [hm] at h
              cases hm' : fixTypes mv with
              | none => simp only [hm'] at h; exact Option.noConfusion h
              | some mv' =>
                simp only [hm', Option.some.injEq] at h
                subst h
                have h1 : lookupField (setKey rf "schedule"
                    (.obj (setKey (setKey sf "today" tv') "tomorrow" mv'))) "schedule" =
                    some (.obj (setKey (setKey sf "today" tv') "tomorrow" mv')) :=
                  lookupField_setKey_self ..
                have h2 : lookupField (setKey (setKey sf "today" tv') "tomorrow" mv')
                    "today" = some tv' := by
                  rw [lookupField_setKey_ne _ _ (by decide)]
                  exact lookupField_setKey_self ..
                have h3 : lookupField (setKey (setKey sf "today" tv') "tomorrow" mv')
                    "tomorrow" = some mv' :=
                  lookupField_setKey_self ..
                simp only [fixSchedule, asObj, h1, h2, h3, fixTypes_idem ht',
                  fixTypes_idem hm', setKey_of_lookup h2, setKey_of_lookup h3,
                  setKey_of_lookup h1]

theorem fixSchedule_default : fixSchedule defaultConfig = some defaultConfig := rfl

/-! ### Claim theorems -/

/-- C4: normalizing the serialization of any normalized document gives
that document back: `normalize(serialize(doc)) == doc` for every `doc`
in the range of `normalize` (serialization is the `json.dump` /
`json.load` round trip, value-preserving on JSON trees). -/
theorem normalize_serialize_roundtrip (raw : JValue) :
    normalizeTree (serializeTree (normalizeTree raw)) = normalizeTree raw := by
  unfold serializeTree normalizeTree
  cases h : fixSchedule raw with
  | none => simp [fixSchedule_default]
  | some d => simp [fixSchedule_idem h]

/-- Decomposition of a successful repair pass: the input root is a
mapping holding a `schedule` mapping with `today` and `tomorrow` entries
that each pass `fixTypes`, and the output replaces exactly those
entries. -/
theorem fixSchedule_decomp {raw d : JValue} (h : fixSchedule raw = some d) :
    ∃ rf schedV sf tv tv' mv mv',
      asObj raw = some rf ∧
      lookupField rf "schedule" = some schedV ∧
      asObj schedV = some sf ∧
      lookupField sf "today" = some tv ∧ fixTypes tv = some tv' ∧
      lookupField sf "tomorrow" = some mv ∧ fixTypes mv = some mv' ∧
      d = .obj (setKey rf "schedule"
        (.obj (setKey (setKey sf "today" tv') "tomorrow" mv'))) := by
  cases hr : asObj raw with
  | none => simp only [fixSchedule, hr] at h; exact Option.noConfusion h
  | some rf =>
    simp only [fixSchedule, hr] at h
    cases hs : lookupField rf "schedule" with
    | none => simp only [hs] at h; exact Option.noConfusion h
    | some schedV =>
      simp only [hs] at h
      cases ho : asObj schedV with
      | none => simp only [ho] at h; exact Option.noConfusion h
      | some sf =>
        simp only [ho] at h
        cases ht : lookupField sf "today" with
        | none => simp only [ht] at h; exact Option.noConfusion h
        | some tv =>
          simp only [ht] at h
          cases ht' : fixTypes tv with
          | none => simp only [ht'] at h; exact Option.noConfusion h
          | some tv' =>
            simp only [ht'] at h
            cases hm : lookupField (setKey sf "today" tv') "tomorrow" with
            | none => simp only [hm] at h; exact Option.noConfusion h
            | some mv =>
              simp only [hm] at h
              cases hm' : fixTypes mv with
              | none => simp only [hm'] at h; exact Option.noConfusion h
              | some mv' =>
                simp only [hm', Option.some.injEq] at h
                rw [lookupField_setKey_ne _ _ (by decide)] at hm
                exact ⟨rf, schedV, sf, tv, tv', mv, mv', rfl, hs, ho, ht, ht', hm, hm',
                  h.symm⟩

/-- A keyed `normal` collection comes out of `fixTypes` as the sorted
value array. -/
theorem fixTypes_normal {dv dv' : JValue} {df : List (String × JValue)}
    {fields : List (String × JValue)} (h : fixTypes dv = some dv')
    (hdf : asObj dv = some df) (hn : lookupField df "normal" = some (.obj fields)) :
    ∃ g, asObj dv' = some g ∧
      lookupField g "normal" = some (.arr ((sortByKey fields).map Prod.snd)) := by
  simp only [fixTypes, hdf, hn] at h
  cases hw : lookupField (setKey df "normal" (convertSlots (.obj fields))) "work" with
  | none => simp only [hw] at h; exact Option.noConfusion h
  | some wv =>
    simp only [hw, Option.some.injEq] at h
    subst h
    refine ⟨_, rfl, ?_⟩
    rw [lookupField_setKey_ne _ _ (by decide), lookupField_setKey_self]
    rfl

/-- A keyed `work` collection comes out of `fixTypes` as the sorted
value array. -/
theorem fixTypes_work {dv dv' : JValue} {df : List (String × JValue)}
    {fields : List (String × JValue)} (h : fixTypes dv = some dv')
    (hdf : asObj dv = some df) (hn : lookupField df "work" = some (.obj fields)) :
    ∃ g, asObj dv' = some g ∧
      lookupField g "work" = some (.arr ((sortByKey fields).map Prod.snd)) := by
  cases hnv : lookupField df "normal" with
  | none => simp only [fixTypes, hdf, hnv] at h; exact Option.noConfusion h
  | some nv =>
    simp only [fixTypes, hdf, hnv] at h
    have hw : lookupField (setKey df "normal" (convertSlots nv)) "work" =
        some (.obj fields) := by
      rw [lookupField_setKey_ne _ _ (by decide)]; exact hn
    simp only [hw, Option.some.injEq] at h
    subst h
    refine ⟨_, rfl, ?_⟩
    rw [lookupField_setKey_self]
    rfl

/-- C5: a keyed (mapping) slot collection at `schedule[day][type]` is
normalized into the array of its values in lexicographically sorted key
order. -/
theorem normalize_converts_keyed_slots
    (raw d : JValue) (day ty : String) (fields : List (String × JValue))
    (hfix : fixSchedule raw = some d)
    (hdt : (day, ty) ∈ [("today", "normal"), ("today", "work"),
      ("tomorrow", "normal"), ("tomorrow", "work")])
    (hget : getSlots raw day ty = some (.obj fields)) :
    getSlots d day ty = some (.arr ((sortByKey fields).map Prod.snd)) := by
  obtain ⟨rf, schedV, sf, tv, tv', mv, mv', hr, hs, ho, ht, ht', hm, hm', hd⟩ :=
    fixSchedule_decomp hfix
  subst hd
  have e1 : lookupField (setKey (setKey sf "today" tv') "tomorrow" mv') "today" =
      some tv' := by
    rw [lookupField_setKey_ne _ _ (by decide)]; exact lookupField_setKey_self ..
  have e2 : lookupField (setKey (setKey sf "today" tv') "tomorrow" mv') "tomorrow" =
      some mv' := lookupField_setKey_self ..
  simp only [getSlots, hr, hs, ho] at hget
  simp only [List.mem_cons, List.mem_singleton, Prod.mk.injEq,
    List.not_mem_nil, or_false] at hdt
  rcases hdt with ⟨rfl, rfl⟩ | ⟨rfl, rfl⟩ | ⟨rfl, rfl⟩ | ⟨rfl, rfl⟩
  · simp only [ht] at hget
    cases hdf : asObj tv with
    | none => simp only [hdf] at hget; exact Option.noConfusion hget
    | some df =>
      simp only [hdf] at hget
      obtain ⟨g, hg, hgl⟩ := fixTypes_normal ht' hdf hget
      simp only [getSlots, asObj_obj, lookupField_setKey_self, e1, hg, hgl]
  · simp only [ht] at hget
    cases hdf : asObj tv with
    | none => simp only [hdf] at hget; exact Option.noConfusion hget
    | some df =>
      simp only [hdf] at hget
      obtain ⟨g, hg, hgl⟩ := fixTypes_work ht' hdf hget
      simp only [getSlots, asObj_obj, lookupField_setKey_self, e1, hg, hgl]
  · simp only [hm] at hget
    cases hdf : asObj mv with
    | none => simp only [hdf] at hget; exact Option.noConfusion hget
    | some df =>
      simp only [hdf] at hget
      obtain ⟨g, hg, hgl⟩ := fixTypes_normal hm' hdf hget
      simp only [getSlots, asObj_obj, lookupField_setKey_self, e2, hg, hgl]
  · simp only [hm] at hget
    cases hdf : asObj mv with
    | none => simp only [hdf] at hget; exact Option.noConfusion hget
    | some df =>
      simp only [hdf] at hget
      obtain ⟨g, hg, hgl⟩ := fixTypes_work hm' hdf hget
      simp only [getSlots, asObj_obj, lookupField_setKey_self, e2, hg, hgl]

/-- C5 witness: the keyed mapping `{"0": slotA, "1": slotB}` under
`schedule.today.normal` becomes the ordered array `[slotA, slotB]`. -/
theorem normalize_converts_keyed_slots_witness :
    getSlots (normalizeTree (.obj [("schedule", .obj
      [("today", .obj
        [("normal", .obj [("0", mkSlot "9:30 AM - 12:30 PM" "A" "a"),
                          ("1", mkSlot "1:00 PM - 4:00 PM" "B" "b")]),
         ("work", .arr [mkSlot "9:30 AM - 12:30 PM" "W" "w"])]),
       ("tomorrow", .obj
        [("normal", .arr []), ("work", .arr [])])])]))
      "today" "normal" =
    some (.arr [mkSlot "9:30 AM - 12:30 PM" "A" "a",
                mkSlot "1:00 PM - 4:00 PM" "B" "b"]) := by
  have h := normalize_converts_keyed_slots
    (.obj [("schedule", .obj
      [("today", .obj
        [("normal", .obj [("0", mkSlot "9:30 AM - 12:30 PM" "A" "a"),
                          ("1", mkSlot "1:00 PM - 4:00 PM" "B" "b")]),
         ("work", .arr [mkSlot "9:30 AM - 12:30 PM" "W" "w"])]),
       ("tomorrow", .obj
        [("normal", .arr []), ("work", .arr [])])])])
    _ "today" "normal"
    [("0", mkSlot "9:30 AM - 12:30 PM" "A" "a"),
     ("1", mkSlot "1:00 PM - 4:00 PM" "B" "b")]
    rfl (by decide) rfl
  exact h

/-- C6 counterexample: a raw document whose root is a mapping holding a
well-shaped `schedule` but no `theme` field normalizes to a document in
which `theme` is still absent, not filled with its documented default. -/
theorem normalize_missing_theme_not_defaulted :
    jget (normalizeTree (.obj [("schedule", .obj
      [("today", .obj [("normal", .arr []), ("work", .arr [])]),
       ("tomorrow", .obj [("normal", .arr []), ("work", .arr [])])])])) "theme" =
      none ∧
    (asObj (.obj [("schedule", .obj
      [("today", .obj [("normal", .arr []), ("work", .arr [])]),
       ("tomorrow", .obj [("normal", .arr []), ("work", .arr [])])])])).isSome =
      true :=
  ⟨rfl, rfl⟩

/-- C6 (amended): normalization never raises — on a repairable mapping
root it passes every optional top-level field (`theme`, `timezone`,
`exportScope`, `layout`, `discord`) through unchanged, leaving absent
fields absent rather than filling defaults, and on a non-mapping root it
returns the whole hardcoded default document. -/
theorem normalize_optional_fields_amended :
    (∀ raw d fld, fixSchedule raw = some d →
      fld ∈ ["theme", "timezone", "exportScope", "layout", "discord"] →
      jget d fld = jget raw fld) ∧
    (∀ raw, asObj raw = none → normalizeTree raw = defaultConfig) := by
  constructor
  · intro raw d fld hfix hfld
    obtain ⟨rf, schedV, sf, tv, tv', mv, mv', hr, hs, ho, ht, ht', hm, hm', hd⟩ :=
      fixSchedule_decomp hfix
    subst hd
    have hne : fld ≠ "schedule" := by
      simp only [List.mem_cons, List.mem_singleton, List.not_mem_nil, or_false] at hfld
      rcases hfld with rfl | rfl | rfl | rfl | rfl <;> decide
    cases raw with
    | obj rawFields =>
      have hrf : rawFields = rf := by simpa [asObj] using hr
      show lookupField (setKey rf "schedule" _) fld = lookupField rawFields fld
      rw [hrf]
      exact lookupField_setKey_ne _ _ (Ne.symm hne)
    | null => exact absurd hr (by simp [asObj])
    | bool b => exact absurd hr (by simp [asObj])
    | num n => exact absurd hr (by simp [asObj])
    | str s => exact absurd hr (by simp [asObj])
    | arr xs => exact absurd hr (by simp [asObj])
  · intro raw h
    simp [normalizeTree, fixSchedule, h]

/-- C6 amended witness: a schedule-only mapping keeps `timezone` as in
the input (here: present and untouched), and a non-mapping root yields
the default document. -/
theorem normalize_optional_fields_amended_witness :
    jget (normalizeTree (.obj
      [("timezone", .str "EST"),
       ("schedule", .obj
        [("today", .obj [("normal", .arr []), ("work", .arr [])]),
         ("tomorrow", .obj [("normal", .arr []), ("work", .arr [])])])])) "timezone" =
      some (.str "EST") ∧
    normalizeTree (.str "corrupt") = defaultConfig := by
  constructor
  · have h := normalize_optional_fields_amended.1
      (.obj [("timezone", .str "EST"),
       ("schedule", .obj
        [("today", .obj [("normal", .arr []), ("work", .arr [])]),
         ("tomorrow", .obj [("normal", .arr []), ("work", .arr [])])])])
      _ "timezone" rfl (by decide)
    exact h.trans rfl
  · exact normalize_optional_fields_amended.2 (.str "corrupt") rfl

/-! ### Shallow merge (`POST /api/config`) -/

theorem lookupField_pyDictUpdate_not_mem {body : List (String × JValue)}
    (d : List (String × JValue)) {k : String} (h : k ∉ body.map Prod.fst) :
    lookupField (pyDictUpdate d body) k = lookupField d k := by
  induction body generalizing d with
  | nil => rfl
  | cons hd tl ih =>
    obtain ⟨k₁, v₁⟩ := hd
    simp only [List.map_cons, List.mem_cons, not_or] at h
    show lookupField (pyDictUpdate (setKey d k₁ v₁) tl) k = lookupField d k
    rw [ih _ h.2, lookupField_setKey_ne _ _ (Ne.symm h.1)]

theorem lookupField_pyDictUpdate_mem {body : List (String × JValue)}
    (d : List (String × JValue)) {k : String} {v : JValue}
    (hnd : (body.map Prod.fst).Nodup) (h : List.lookup k body = some v) :
    lookupField (pyDictUpdate d body) k = some v := by
  induction body generalizing d with
  | nil => simp [List.lookup] at h
  | cons hd tl ih =>
    obtain ⟨k₁, v₁⟩ := hd
    simp only [List.map_cons, List.nodup_cons] at hnd
    show lookupField (pyDictUpdate (setKey d k₁ v₁) tl) k = some v
    by_cases hk : k = k₁
    · subst hk
      simp only [List.lookup, beq_self_eq_true, Option.some.injEq] at h
      rw [lookupField_pyDictUpdate_not_mem _ hnd.1, lookupField_setKey_self]
      exact congrArg some h
    · have hne : (k == k₁) = false := by simp [hk]
      have hl : List.lookup k tl = some v := by
        simpa [List.lookup, hne] using h
      exact ih _ hnd.2 hl

theorem lookup_none_not_mem {body : List (String × JValue)} {k : String}
    (h : List.lookup k body = none) : k ∉ body.map Prod.fst := by
  induction body with
  | nil => simp
  | cons hd tl ih =>
    obtain ⟨k₁, v₁⟩ := hd
    by_cases hk : k = k₁
    · subst hk; simp [List.lookup] at h
    · have hne : (k == k₁) = false := by simp [hk]
      simp only [List.lookup, hne] at h
      simp [hk, ih h]

/-- C7: `POST /api/config` with a JSON-object body merges exactly the
body's top-level keys into the document (each key present in the body is
bound to the body's sub-tree, each key absent from the body keeps its
old value), and both persists and returns that merged document; an
uninitialized manager yields the 500 error instead. -/
theorem postConfig_shallow_merge (fields body : List (String × JValue)) (k : String)
    (hnd : (body.map Prod.fst).Nodup) :
    postConfigRoute (some (.obj fields)) body =
      some (.obj (pyDictUpdate fields body), .obj (pyDictUpdate fields body)) ∧
    (∀ v, List.lookup k body = some v →
      lookupField (pyDictUpdate fields body) k = some v) ∧
    (List.lookup k body = none →
      lookupField (pyDictUpdate fields body) k = lookupField fields k) ∧
    postConfigRoute none body = none :=
  ⟨rfl,
   fun _ h => lookupField_pyDictUpdate_mem _ hnd h,
   fun h => lookupField_pyDictUpdate_not_mem _ (lookup_none_not_mem h),
   rfl⟩

/-- C7 witness: posting `{"theme": "forest"}` over a document holding a
channel and `theme = "twilight"`: the route returns and persists the
merged document, whose `theme` is `"forest"` while `channel` is
untouched (so a subsequent `GET`, which returns the manager state, shows
exactly that). -/
theorem postConfig_shallow_merge_witness :
    postConfigRoute
      (some (.obj [("channel", .obj [("name", .str "Audacious Gabe")]),
                   ("theme", .str "twilight")]))
      [("theme", .str "forest")] =
      some (.obj [("channel", .obj [("name", .str "Audacious Gabe")]),
                  ("theme", .str "forest")],
            .obj [("channel", .obj [("name", .str "Audacious Gabe")]),
                  ("theme", .str "forest")]) ∧
    lookupField (pyDictUpdate
      [("channel", .obj [("name", .str "Audacious Gabe")]),
       ("theme", .str "twilight")] [("theme", .str "forest")]) "theme" =
      some (.str "forest") ∧
    lookupField (pyDictUpdate
      [("channel", .obj [("name", .str "Audacious Gabe")]),
       ("theme", .str "twilight")] [("theme", .str "forest")]) "channel" =
      some (.obj [("name", .str "Audacious Gabe")]) := by
  obtain ⟨h1, h2, -, -⟩ := postConfig_shallow_merge
    [("channel", .obj [("name", .str "Audacious Gabe")]), ("theme", .str "twilight")]
    [("theme", .str "forest")] "theme" (by decide)
  obtain ⟨-, -, h3, -⟩ := postConfig_shallow_merge
    [("channel", .obj [("name", .str "Audacious Gabe")]), ("theme", .str "twilight")]
    [("theme", .str "forest")] "channel" (by decide)
  exact ⟨h1.trans rfl, h2 _ rfl, (h3 rfl).trans rfl⟩

/-! ### Slot deletion and addition -/

theorem getSlots_setSlots {cfg : JValue} {day ty : String} {v0 : JValue}
    (h : getSlots cfg day ty = some v0) (v : JValue) :
    getSlots (setSlots cfg day ty v) day ty = some v := by
  cases cfg with
  | obj rootFields =>
    simp only [getSlots, asObj_obj] at h
    cases hs : lookupField rootFields "schedule" with
    | none => simp only [hs] at h; exact Option.noConfusion h
    | some schedV =>
      simp only [hs] at h
      cases schedV with
      | obj sf =>
        simp only [asObj_obj] at h
        cases hd : lookupField sf day with
        | none => simp only [hd] at h; exact Option.noConfusion h
        | some dv =>
          simp only [hd] at h
          cases dv with
          | obj df =>
            simp only [asObj_obj] at h
            simp only [setSlots, hs, hd]
            simp only [getSlots, asObj_obj, lookupField_setKey_self]
          | null => simp [asObj] at h
          | bool b => simp [asObj] at h
          | num n => simp [asObj] at h
          | str s => simp [asObj] at h
          | arr xs => simp [asObj] at h
      | null => simp [asObj] at h
      | bool b => simp [asObj] at h
      | num n => simp [asObj] at h
      | str s => simp [asObj] at h
      | arr xs => simp [asObj] at h
  | null => simp [getSlots, asObj] at h
  | bool b => simp [getSlots, asObj] at h
  | num n => simp [getSlots, asObj] at h
  | str s => simp [getSlots, asObj] at h
  | arr xs => simp [getSlots, asObj] at h

/-- C8: deleting from a slot collection that holds exactly one slot is
refused, returning the whole document unchanged; moreover neither
deletion (which refuses at one slot and otherwise removes one of at
least two) nor addition (which appends) can empty a collection, so
every slot collection reachable through the editing operations keeps at
least one slot. -/
theorem deleteSlot_sole_slot_refused :
    (∀ cfg day ty index confirm slots, getSlots cfg day ty = some (.arr slots) →
      slots.length = 1 → deleteSlot cfg day ty index confirm = some cfg) ∧
    (∀ cfg day ty index confirm cfg' slots,
      deleteSlot cfg day ty index confirm = some cfg' →
      getSlots cfg day ty = some (.arr slots) → 1 ≤ slots.length →
      ∃ slots', getSlots cfg' day ty = some (.arr slots') ∧ 1 ≤ slots'.length) ∧
    (∀ cfg day ty cfg' slots, addSlotJ cfg day ty = some cfg' →
      getSlots cfg day ty = some (.arr slots) →
      ∃ slots', getSlots cfg' day ty = some (.arr slots') ∧ 1 ≤ slots'.length) := by
  refine ⟨?_, ?_, ?_⟩
  · intro cfg day ty index confirm slots hget hlen
    simp only [deleteSlot, hget, hlen]
    rfl
  · intro cfg day ty index confirm cfg' slots hdel hget hlen
    simp only [deleteSlot, hget] at hdel
    by_cases hle : slots.length ≤ 1
    · simp only [hle, if_pos] at hdel
      cases hdel
      exact ⟨slots, hget, hlen⟩
    · simp only [hle, if_neg, if_false] at hdel
      cases confirm with
      | false =>
        simp only [if_neg, Bool.false_eq_true, ite_false] at hdel
        cases hdel
        exact ⟨slots, hget, hlen⟩
      | true =>
        simp only [if_pos, ite_true] at hdel
        cases hp : pyPop slots index with
        | none => simp only [hp] at hdel; exact Option.noConfusion hdel
        | some slots' =>
          simp only [hp, Option.some.injEq] at hdel
          have hlen' : 1 ≤ slots'.length := by
            simp only [pyPop] at hp
            by_cases hi : index < slots.length
            · simp only [hi, if_pos, Option.some.injEq] at hp
              subst hp
              have := List.length_eraseIdx_add_one hi
              omega
            · simp [hi] at hp
          exact ⟨slots', hdel ▸ getSlots_setSlots hget (.arr slots'), hlen'⟩
  · intro cfg day ty cfg' slots hadd hget
    simp only [addSlotJ, hget, Option.some.injEq] at hadd
    refine ⟨slots ++ [newSlotJ slots], hadd ▸ getSlots_setSlots hget _, ?_⟩
    simp

/-- C8 witness: on a concrete document whose `today.normal` collection
holds exactly one slot, `delete_slot` returns the document unchanged. -/
theorem deleteSlot_sole_slot_refused_witness :
    deleteSlot (.obj [("schedule", .obj
      [("today", .obj [("normal", .arr [mkSlot "9:30 AM - 12:30 PM" "A" "a"]),
                       ("work", .arr [mkSlot "1:00 PM - 4:00 PM" "B" "b"])]),
       ("tomorrow", .obj [("normal", .arr [mkSlot "5:00 PM - 8:00 PM" "C" "c"]),
                          ("work", .arr [mkSlot "9:00 PM - 12:00 AM" "D" "d"])])])])
      "today" "normal" 0 true =
    some (.obj [("schedule", .obj
      [("today", .obj [("normal", .arr [mkSlot "9:30 AM - 12:30 PM" "A" "a"]),
                       ("work", .arr [mkSlot "1:00 PM - 4:00 PM" "B" "b"])]),
       ("tomorrow", .obj [("normal", .arr [mkSlot "5:00 PM - 8:00 PM" "C" "c"]),
                          ("work", .arr [mkSlot "9:00 PM - 12:00 AM" "D" "d"])])])]) :=
  deleteSlot_sole_slot_refused.1 _ "today" "normal" 0 true
    [mkSlot "9:30 AM - 12:30 PM" "A" "a"] rfl rfl

/-! ### Message-composer claims -/

/-- C2 counterexample: in the slot `"9:30 AM - 9:00 AM"` the end
wall-clock time (9:00) is numerically earlier than the start (9:30) in
24-hour terms and is not midnight, so the claim places the end instant
on the next calendar day — but the composer compares hours only and
keeps it on the same day (day index 0 on both instants). -/
theorem slotInstants_minutes_ignored_counterexample :
    slotInstants 0 "9:30 AM - 9:00 AM" = some (⟨0, 9, 30⟩, ⟨0, 9, 0⟩) ∧
    9 * 60 + 0 < 9 * 60 + 30 :=
  ⟨by decide, by decide⟩

/-- C2 (amended): for a slot time that splits into two parseable parts,
the start instant carries the reference date and the end instant moves
to the next calendar day exactly when the end HOUR is strictly below
the start hour (minutes are not compared) or the end reads exactly
midnight; in particular `"9:00 PM - 12:00 AM"` gives a start today at
21:00 and an end tomorrow at 00:00. -/
theorem slotInstants_end_day_rule (refDay : Nat) (t a b : String) (st et : Nat × Nat)
    (hsplit : pySplitOnSep t " - " = [a, b])
    (ha : parseTimeString a = some st) (hb : parseTimeString b = some et) :
    slotInstants refDay t =
      some (⟨refDay, st.1, st.2⟩,
            ⟨if et.1 < st.1 ∨ (et.1 = 0 ∧ et.2 = 0) then refDay + 1 else refDay,
             et.1, et.2⟩) ∧
    slotInstants refDay "9:00 PM - 12:00 AM" =
      some (⟨refDay, 21, 0⟩, ⟨refDay + 1, 0, 0⟩) := by
  constructor
  · simp only [slotInstants, hsplit, ha, hb]
  · rfl

/-- C2 amended witness: the cross-midnight example at reference day 0. -/
theorem slotInstants_end_day_rule_witness :
    slotInstants 0 "9:00 PM - 12:00 AM" = some (⟨0, 21, 0⟩, ⟨1, 0, 0⟩) :=
  (slotInstants_end_day_rule 0 "9:00 PM - 12:00 AM" "9:00 PM" "12:00 AM"
    (21, 0) (0, 0) (by decide) (by decide) (by decide)).2

/-- C9: per-slot rendering is total and self-recovering — whenever the
slot's time does not split on `" - "` into exactly two parts, or either
part is rejected by `parse_time_string` (the code's prefix-anchored,
case-insensitive `H:MM AM|PM` regex), the line is rendered from the raw
literal time string as `• **<time>** - <title>: <desc>`, and no failure
escapes to the caller. -/
theorem renderSlotLine_fallback_total (ts : Instant → Int) (fc : String) (refDay : Nat)
    (slot : Slot)
    (h : ∀ a b, pySplitOnSep slot.time " - " = [a, b] →
      parseTimeString a = none ∨ parseTimeString b = none) :
    renderSlotLine ts fc true refDay slot =
      "• **" ++ slot.time ++ "** - " ++ slot.title ++ ": " ++ slot.desc := by
  have hnone : slotInstants refDay slot.time = none := by
    unfold slotInstants
    cases hs : pySplitOnSep slot.time " - " with
    | nil => rfl
    | cons a rest =>
      cases rest with
      | nil => rfl
      | cons b rest2 =>
        cases rest2 with
        | nil =>
          rcases h a b hs with h1 | h1 <;>
            cases ha : parseTimeString a <;> cases hb : parseTimeString b <;>
            simp_all
        | cons c rest3 => rfl
  simp only [renderSlotLine, hnone, if_pos]

/-- C9 witness: a slot whose time field has no `" - "` separator renders
as the literal fallback line. -/
theorem renderSlotLine_fallback_total_witness :
    renderSlotLine (fun _ => 0) "R" true 0 ⟨"sometime", "T", "D"⟩ =
      "• **sometime** - T: D" := by
  have h := renderSlotLine_fallback_total (fun _ => 0) "R" 0 ⟨"sometime", "T", "D"⟩
    (by
      intro a b hab
      have hl : (pySplitOnSep (Slot.mk "sometime" "T" "D").time " - ").length = 1 := by
        decide
      rw [hab] at hl
      simp at hl)
  exact h.trans rfl

/-! ### Slot-derivation claims -/

/-- C1 counterexample: with the default document's last slot
`"9:00 PM - 12:00 AM"` the parsed end time is `12:00 AM` (hour 12,
minute 0, meridiem AM, all in range), the derived slot is
`"12:30 AM - 3:30 PM"`, and its end time `3:30 PM` (930 minutes) is
not the start `12:30 AM` plus 3 hours of a simple 24-hour-converted
addition (which gives 210 minutes, i.e. `3:30 AM`). -/
theorem deriveNextTime_plus3_counterexample :
    deriveNextTimeJ [.obj [("time", .str "9:00 PM - 12:00 AM")]] =
      "12:30 AM - 3:30 PM" ∧
    parseEndOfRange "9:00 PM - 12:00 AM" = some (12, 0, "AM") ∧
    to24min 3 30 "PM" ≠ (to24min 12 30 "AM" + 180) % 1440 :=
  ⟨by decide, by decide, by decide⟩

theorem plus3Check_true : plus3Check = true := by decide

/-- C1 (amended): under an in-range parsed end time, the derived slot is
rendered from the +30-minute start `(sh, sm, sap)` and the +3-hour end,
and the end equals the start plus 3 hours as a simple 24-hour-converted
addition EXCEPT when the new start hour is 12, in which case the code
additionally flips the meridiem, landing 12 hours away. -/
theorem deriveNextTime_plus_three_hours_amended
    (slots : List JValue) (lastSlot : JValue) (t : String) (h m : Int) (ap : String)
    (sh sm : Int) (sap : String) (eh : Int) (eap : String)
    (hlast : slots.getLast? = some lastSlot)
    (htime : jget lastSlot "time" = some (.str t))
    (hp : parseEndOfRange t = some (h, m, ap))
    (hh1 : 1 ≤ h) (hh2 : h ≤ 12) (hm1 : 0 ≤ m) (hm2 : m ≤ 59)
    (hap : ap = "AM" ∨ ap = "PM")
    (hstart : addThirtyMinutes h m ap = (sh, sm, sap))
    (hend : addThreeHours sh sap = (eh, eap)) :
    deriveNextTimeJ slots = fmtTime sh sm sap ++ " - " ++ fmtTime eh sm eap ∧
    to24min eh sm eap =
      (to24min sh sm sap + 180 + (if sh = 12 then 720 else 0)) % 1440 := by
  constructor
  · have h1 : tryDeriveTime t = some (deriveCore h m ap) := by
      rw [tryDeriveTime, hp]; rfl
    simp only [deriveNextTimeJ, hlast, htime, h1, Option.getD_some]
    simp only [deriveCore, hstart, hend]
  · have hb := plus3Check_true
    simp only [plus3Check, List.all_eq_true] at hb
    have m1 : (h - 1).toNat ∈ List.range 12 := by rw [List.mem_range]; omega
    have m2 : m.toNat ∈ List.range 60 := by rw [List.mem_range]; omega
    have m3 : ap ∈ ["AM", "PM"] := by rcases hap with rfl | rfl <;> simp
    have hb' := hb _ m1 _ m2 _ m3
    have hh : ((h - 1).toNat : Int) + 1 = h := by omega
    have hm : ((m.toNat : Int)) = m := by omega
    rw [hh, hm, hstart] at hb'
    simp only [hend, beq_iff_eq] at hb'
    exact hb'

/-- C1 amended witness: last end time `11:00 AM` gives the slot
`"11:30 AM - 2:30 PM"`, whose end is the start plus 3 plain hours
(start hour is not 12, so no extra flip). -/
theorem deriveNextTime_plus_three_hours_amended_witness :
    deriveNextTimeJ [.obj [("time", .str "9:30 AM - 11:00 AM")]] =
      "11:30 AM - 2:30 PM" ∧
    to24min 2 30 "PM" =
      (to24min 11 30 "AM" + 180 + (if (11 : Int) = 12 then 720 else 0)) % 1440 := by
  obtain ⟨h1, h2⟩ := deriveNextTime_plus_three_hours_amended
    [.obj [("time", .str "9:30 AM - 11:00 AM")]]
    (.obj [("time", .str "9:30 AM - 11:00 AM")]) "9:30 AM - 11:00 AM"
    11 0 "AM" 11 30 "AM" 2 "PM" rfl rfl (by decide)
    (by decide) (by decide) (by decide) (by decide) (Or.inl rfl)
    (by decide) (by decide)
  exact ⟨h1.trans (by decide), h2⟩

/-- C3: when the last slot's end time reads exactly `"12:00 AM"`, the
derived slot starts at `"12:30 AM"` (the +30-minute step leaves hour 12
and flips nothing, matching 12-hour wall-clock rules), the whole derived
range being `"12:30 AM - 3:30 PM"`. -/
theorem deriveNextTime_midnight_end
    (slots : List JValue) (lastSlot : JValue) (t st : String)
    (hlast : slots.getLast? = some lastSlot)
    (htime : jget lastSlot "time" = some (.str t))
    (hsplit : pySplitOnSep t " - " = [st, "12:00 AM"]) :
    deriveNextTimeJ slots = "12:30 AM - 3:30 PM" := by
  have hp : parseEndOfRange t = some (12, 0, "AM") := by
    simp only [parseEndOfRange, hsplit]
    rfl
  have h1 : tryDeriveTime t = some (deriveCore 12 0 "AM") := by
    rw [tryDeriveTime, hp]; rfl
  simp only [deriveNextTimeJ, hlast, htime, h1, Option.getD_some]
  decide

/-- C3 witness: the cross-midnight default slot. -/
theorem deriveNextTime_midnight_end_witness :
    deriveNextTimeJ [.obj [("time", .str "5:00 PM - 12:00 AM")]] =
      "12:30 AM - 3:30 PM" :=
  deriveNextTime_midnight_end [.obj [("time", .str "5:00 PM - 12:00 AM")]]
    (.obj [("time", .str "5:00 PM - 12:00 AM")]) "5:00 PM - 12:00 AM" "5:00 PM"
    rfl rfl (by decide)

/-- C10 counterexample: the end time `"9:00 XM"` parses (hour 9, minute
0) with the meridiem kept as the uninterpreted string `"XM"`, satisfying
the claim's hypothesis, yet the derived time `"9:30 XM - 12:30 AM"` is
not well formed (its start side does not match `H:MM AM|PM`). -/
theorem deriveNextTime_meridiem_unchecked_counterexample :
    parseEndOfRange "1:00 PM - 9:00 XM" = some (9, 0, "XM") ∧
    deriveNextTimeJ [.obj [("time", .str "1:00 PM - 9:00 XM")]] =
      "9:30 XM - 12:30 AM" ∧
    wellFormedTime "9:30 XM - 12:30 AM" = false :=
  ⟨by decide, by decide, by decide⟩

set_option maxHeartbeats 4000000 in
theorem wfAllCheck_eq_true : wfAllCheck = true := by decide

theorem wellFormedTime_deriveCore (h m : Int) (ap : String)
    (hh1 : 1 ≤ h) (hh2 : h ≤ 12) (hm1 : 0 ≤ m) (hm2 : m ≤ 59)
    (hap : ap = "AM" ∨ ap = "PM") :
    wellFormedTime (deriveCore h m ap) = true := by
  have hb := wfAllCheck_eq_true
  simp only [wfAllCheck, List.all_eq_true] at hb
  have m1 : (h - 1).toNat ∈ List.range 12 := by rw [List.mem_range]; omega
  have m2 : m.toNat ∈ List.range 60 := by rw [List.mem_range]; omega
  have m3 : ap ∈ ["AM", "PM"] := by rcases hap with rfl | rfl <;> simp
  have hb' := hb _ m1 _ m2 _ m3
  have hh : h = ((h - 1).toNat : Int) + 1 := by omega
  have hm : m = ((m.toNat : Int)) := by omega
  rw [hh, hm]
  exact hb'

/-- C10 (amended): when the last slot's end time parses with hour in
`[1, 12]`, minute in `[0, 59]` AND a meridiem that is exactly `AM` or
`PM`, the derived slot's time field is well formed: it splits on
`" - "` into exactly two parts, each matching `H:MM AM|PM` with hour in
`[1, 12]` and zero-padded minute in `[00, 59]` (the meridiem hypothesis
is necessary — see the counterexample). -/
theorem deriveNextTime_wellformed_amended
    (slots : List JValue) (lastSlot : JValue) (t : String) (h m : Int) (ap : String)
    (hlast : slots.getLast? = some lastSlot)
    (htime : jget lastSlot "time" = some (.str t))
    (hp : parseEndOfRange t = some (h, m, ap))
    (hh1 : 1 ≤ h) (hh2 : h ≤ 12) (hm1 : 0 ≤ m) (hm2 : m ≤ 59)
    (hap : ap = "AM" ∨ ap = "PM") :
    wellFormedTime (deriveNextTimeJ slots) = true := by
  have h1 : tryDeriveTime t = some (deriveCore h m ap) := by
    rw [tryDeriveTime, hp]; rfl
  simp only [deriveNextTimeJ, hlast, htime, h1, Option.getD_some]
  exact wellFormedTime_deriveCore h m ap hh1 hh2 hm1 hm2 hap

/-- C10 amended witness: last end time `9:00 PM` yields a well-formed
derived range. -/
theorem deriveNextTime_wellformed_amended_witness :
    wellFormedTime (deriveNextTimeJ [.obj [("time", .str "1:00 PM - 9:00 PM")]]) =
      true :=
  deriveNextTime_wellformed_amended [.obj [("time", .str "1:00 PM - 9:00 PM")]]
    (.obj [("time", .str "1:00 PM - 9:00 PM")]) "1:00 PM - 9:00 PM" 9 0 "PM"
    rfl rfl (by decide) (by decide) (by decide) (by decide) (by decide)
    (Or.inr rfl)
